import Mathlib

/-!
Shallow embedding of the Manta storage request-execution path
(`Storage.executeRequest` and `Storage.executeRequestNoEncode` of the
storage package), together with the header plumbing of Go's `net/http`
and `net/textproto` that those functions rely on.

External collaborators -- the JSON encoder (`json.MarshalIndent`), the
URL parser (`url.Parse`), the query encoder (`url.Values.Encode`), the
JSON error decoder (`json.Decoder.Decode`), the signer and the HTTP
transport -- are modelled as oracle functions carried by an environment
record; the date header value (`time.Now().UTC().Format(time.RFC1123)`)
is likewise a field of the environment.  Go maps are modelled as
association lists with a fixed iteration order, and the
`url.URL.String` / re-parse round trip inside `http.NewRequest` is
assumed to be the identity.
-/

namespace Manta

/-- Token characters accepted in MIME header keys and HTTP methods
(Go `net/textproto` validHeaderFieldByte and `net/http` validMethod):
ASCII letters and digits plus the fifteen symbol bytes of the HTTP
token table, given here by code point
(33 35 36 37 38 39 42 43 45 46 94 95 96 124 126). -/
def isTokenChar (c : Char) : Bool :=
  c.isAlphanum ||
    [33, 35, 36, 37, 38, 39, 42, 43, 45, 46, 94, 95, 96, 124, 126].contains c.toNat

/-- Case transform of Go `net/textproto` canonicalisation: upper-case a
letter at the start or right after a hyphen, lower-case every other
letter. -/
def canonicalChars : Bool → List Char → List Char
  | _, [] => []
  | upper, c :: rest =>
    (if upper then c.toUpper else c.toLower) :: canonicalChars (c == '-') rest

/-- Go `net/textproto` CanonicalMIMEHeaderKey: if every byte of the key
is a token character the key is canonicalised, otherwise it is returned
unchanged. -/
def canonicalMIMEHeaderKey (s : String) : String :=
  if s.data.all isTokenChar then String.mk (canonicalChars true s.data) else s

/-- Go `http.Header` / `textproto.MIMEHeader` / `url.Values`: a
string-keyed map of value lists, modelled as an association list with a
fixed iteration order. -/
abbrev HeaderMap := List (String × List String)

/-- Map update under an already-canonical key: replace the value list
of the matching entry, or append a new entry. -/
def setEntry : HeaderMap → String → String → HeaderMap
  | [], ck, v => [(ck, [v])]
  | p :: t, ck, v => if p.1 == ck then (ck, [v]) :: t else p :: setEntry t ck v

/-- Go `http.Header.Set` (via `textproto.MIMEHeader.Set`): store the
single-element value list under the canonicalised key, replacing any
previous values. -/
def headerSet (h : HeaderMap) (k v : String) : HeaderMap :=
  setEntry h (canonicalMIMEHeaderKey k) v

/-- Go `http.Header.Get` (via `textproto.MIMEHeader.Get`): look up the
canonicalised key and return the first stored value, or the empty
string when the key is absent or has no values. -/
def headerGet (h : HeaderMap) (k : String) : String :=
  match h.find? (fun p => p.1 == canonicalMIMEHeaderKey k) with
  | some (_, v :: _) => v
  | _ => ""

/-- Inner loop of the caller-header merge:
for each value of one key, `req.Header.Set(key, value)`. -/
def setValues (h : HeaderMap) (k : String) (vs : List String) : HeaderMap :=
  vs.foldl (fun a v => headerSet a k v) h

/-- Caller-header merge loop of `executeRequest` and
`executeRequestNoEncode`: for each key and each of its values,
`req.Header.Set(key, value)`. -/
def mergeHeaders (req : HeaderMap) (hs : HeaderMap) : HeaderMap :=
  hs.foldl (fun acc p => setValues acc p.1 p.2) req

/-- Go `url.URL` as used here: the scheme-and-host part produced by
`url.Parse` (kept opaque), the path, and the raw query string. -/
structure NetURL where
  Base : String
  Path : String
  RawQuery : String
deriving DecidableEq, Repr

/-- Outbound `http.Request` as far as these functions observe it:
method, URL, headers, and the body bytes (`none` models a nil body
reader). -/
structure Request where
  Method : String
  URL : NetURL
  Header : HeaderMap
  Body : Option (List Nat)
deriving DecidableEq, Repr

/-- Inbound `http.Response` as far as these functions observe it. -/
structure Response where
  StatusCode : Nat
  Body : List Nat
  Header : HeaderMap
deriving DecidableEq, Repr

/-- An `authentication.Signer`: produces an authorization header value
from the date header value, or fails. -/
structure Signer where
  Sign : String → Except String String

/-- The `client.Client` fields used by the storage functions: the
signer list and the HTTP transport (`HTTPClient.Do`). -/
structure Client where
  Authorizers : List Signer
  HTTPClient : Request → Except String Response

/-- Environment of one call: the `MANTA_URL` process environment value,
the external stdlib collaborators as oracles, and the formatted
current time used for the date header. -/
structure Env (β : Type) where
  mantaURL : String
  parseURL : String → Except String NetURL
  now : String
  marshalIndent : β → String → String → Except String (List Nat)
  encodeQuery : HeaderMap → String
  decodeMantaError : List Nat → Except String (String × String)

/-- Modelled from the spec: the structured service error type
(`MantaError`) is declared outside this repository slice (only its use
sites are in `src`); per the spec it carries the HTTP status code plus
the structured fields the remote service returns (code, message), the
latter filled in by the JSON decoder. -/
structure MantaError where
  StatusCode : Nat
  Code : String
  Message : String
deriving DecidableEq, Repr

/-- Go error values produced on the paths of these functions: a plain
error from an external call, an `errwrap.Wrapf` wrapper, or a
`MantaError`. -/
inductive GoError where
  | simple (msg : String)
  | wrapped (ctx : String) (inner : GoError)
  | mantaErr (e : MantaError)
deriving DecidableEq, Repr

/-- The triple returned by the Go functions:
`(io.ReadCloser, http.Header, error)`, each possibly nil. -/
structure GoReturn where
  body : Option (List Nat)
  header : Option HeaderMap
  err : Option GoError
deriving DecidableEq, Repr

/-- Outcome of the request-building phase (everything before
`s.Client.HTTPClient.Do`): an early return, a runtime panic (the
unguarded `Authorizers[0]` index), or the fully built outbound
request. -/
inductive BuildResult where
  | ret (r : GoReturn)
  | panicked
  | built (req : Request)
deriving DecidableEq, Repr

/-- Outcome of a whole call: a returned triple or a runtime panic. -/
inductive ExecResult where
  | ret (r : GoReturn)
  | panicked
deriving DecidableEq, Repr

/-- `storage.RequestInput`: the request descriptor with a structured
body of some serialisable type. -/
structure RequestInput (β : Type) where
  Method : String
  Path : String
  Query : Option HeaderMap
  Headers : Option HeaderMap
  Body : Option β

/-- `storage.RequestNoEncodeInput`: the request descriptor with a
pre-encoded byte-stream body (`io.ReadSeeker`, nil allowed). -/
structure RequestNoEncodeInput where
  Method : String
  Path : String
  Query : Option HeaderMap
  Headers : Option HeaderMap
  Body : Option (List Nat)

/-- The caller content-type test of `executeRequest`:
`headers == nil || headers.Get("Content-Type") == ""` reads, when the
caller supplied headers, the first stored value under the canonical
key. -/
def callerContentType {β : Type} (inputs : RequestInput β) : String :=
  match inputs.Headers with
  | none => ""
  | some hs => headerGet hs "Content-Type"

/-- Go `net/http` validMethod: non-empty and all token characters. -/
def validMethod (m : String) : Bool :=
  m.length > 0 && m.data.all isTokenChar

/-- Method defaulting of `http.NewRequest`: an empty method becomes
GET. -/
def effectiveMethod (m : String) : String :=
  if m == "" then "GET" else m

/-- The `Content-Type` defaulting step of `executeRequest`: a fresh
request header that holds `Content-Type: application/json` exactly when
a structured body is present and the caller supplied no content type. -/
def defaultCTHeader {β : Type} (inputs : RequestInput β) : HeaderMap :=
  if inputs.Body.isSome && (callerContentType inputs == "") then
    headerSet [] "Content-Type" "application/json"
  else []

/-- The caller-header merge guarded by the nil check
(`if headers != nil`). -/
def mergedHeader (initial : HeaderMap) (headers : Option HeaderMap) : HeaderMap :=
  match headers with
  | none => initial
  | some hs => mergeHeaders initial hs

/-- The header `Set` calls that follow the merge, in source order:
date, Authorization, Accept, User-Agent. -/
def signedHeader (hdr : HeaderMap) (now authHeader : String) : HeaderMap :=
  headerSet
    (headerSet
      (headerSet
        (headerSet hdr "date" now)
        "Authorization" authHeader)
      "Accept" "*/*")
    "User-Agent" "manta-go client API"

/-- Request-building phase of `Storage.executeRequest`: marshal the
structured body to indented JSON (`json.MarshalIndent(body, "", "    ")`),
parse `MANTA_URL`, overwrite the URL path with the descriptor path,
build the request (`http.NewRequest`, which defaults an empty method to
GET and rejects non-token methods), default `Content-Type`, merge
caller headers, set the date header, sign it with `Authorizers[0]`
(a panic when that list is empty), set `Authorization`, `Accept` and
`User-Agent`, and finally encode the query onto the URL if present. -/
def buildRequest {β : Type} (env : Env β) (client : Client) (inputs : RequestInput β) : BuildResult :=
  match (match inputs.Body with
         | none => Except.ok (none : Option (List Nat))
         | some b => (env.marshalIndent b "" "    ").map some) with
  | .error e => .ret ⟨none, none, some (.simple e)⟩
  | .ok requestBody =>
    match env.parseURL env.mantaURL with
    | .error e =>
      .ret ⟨none, none, some (.wrapped "Error parsing MANTA_URL: \x7b\x7berr\x7d\x7d" (.simple e))⟩
    | .ok endpoint0 =>
      let endpoint : NetURL := { endpoint0 with Path := inputs.Path }
      let method := effectiveMethod inputs.Method
      if validMethod method = false then
        .ret ⟨none, none, some (.wrapped "Error constructing HTTP request: \x7b\x7berr\x7d\x7d"
          (.simple ("net/http: invalid method " ++ inputs.Method)))⟩
      else
        let hdr2 := mergedHeader (defaultCTHeader inputs) inputs.Headers
        let dateHeader := env.now
        match client.Authorizers with
        | [] => .panicked
        | signer :: _ =>
          match signer.Sign dateHeader with
          | .error e =>
            .ret ⟨none, none, some (.wrapped "Error signing HTTP request: \x7b\x7berr\x7d\x7d" (.simple e))⟩
          | .ok authHeader =>
            let url1 := match inputs.Query with
              | none => endpoint
              | some q => { endpoint with RawQuery := env.encodeQuery q }
            .built { Method := method
                   , URL := url1
                   , Header := signedHeader hdr2 dateHeader authHeader
                   , Body := requestBody }

/-- Response-handling phase shared by both functions: run the
transport, return body and headers on a 2xx status, otherwise decode
the error body into a `MantaError` carrying the status code, and fail
with a wrapped decode error if that decoding fails. -/
def finishRequest {β : Type} (env : Env β) (client : Client) (req : Request) : GoReturn :=
  match client.HTTPClient req with
  | .error e => ⟨none, none, some (.wrapped "Error executing HTTP request: \x7b\x7berr\x7d\x7d" (.simple e))⟩
  | .ok resp =>
    if 200 ≤ resp.StatusCode ∧ resp.StatusCode < 300 then
      ⟨some resp.Body, some resp.Header, none⟩
    else
      match env.decodeMantaError resp.Body with
      | .error e =>
        ⟨none, none, some (.wrapped "Error decoding error response: \x7b\x7berr\x7d\x7d" (.simple e))⟩
      | .ok (c, m) => ⟨none, none, some (.mantaErr ⟨resp.StatusCode, c, m⟩)⟩

/-- `Storage.executeRequest`: build, then send and classify. -/
def executeRequest {β : Type} (env : Env β) (client : Client) (inputs : RequestInput β) : ExecResult :=
  match buildRequest env client inputs with
  | .ret r => .ret r
  | .panicked => .panicked
  | .built req => .ret (finishRequest env client req)

/-- Request-building phase of `Storage.executeRequestNoEncode`: same as
`buildRequest` but the pre-encoded stream is passed through unchanged,
with no marshalling and no `Content-Type` defaulting. -/
def buildRequestNoEncode {β : Type} (env : Env β) (client : Client) (inputs : RequestNoEncodeInput) : BuildResult :=
  match env.parseURL env.mantaURL with
  | .error e =>
    .ret ⟨none, none, some (.wrapped "Error parsing MANTA_URL: \x7b\x7berr\x7d\x7d" (.simple e))⟩
  | .ok endpoint0 =>
    let endpoint : NetURL := { endpoint0 with Path := inputs.Path }
    let method := effectiveMethod inputs.Method
    if validMethod method = false then
      .ret ⟨none, none, some (.wrapped "Error constructing HTTP request: \x7b\x7berr\x7d\x7d"
        (.simple ("net/http: invalid method " ++ inputs.Method)))⟩
    else
      let hdr2 := mergedHeader [] inputs.Headers
      let dateHeader := env.now
      match client.Authorizers with
      | [] => .panicked
      | signer :: _ =>
        match signer.Sign dateHeader with
        | .error e =>
          .ret ⟨none, none, some (.wrapped "Error signing HTTP request: \x7b\x7berr\x7d\x7d" (.simple e))⟩
        | .ok authHeader =>
          let url1 := match inputs.Query with
            | none => endpoint
            | some q => { endpoint with RawQuery := env.encodeQuery q }
          .built { Method := method
                 , URL := url1
                 , Header := signedHeader hdr2 dateHeader authHeader
                 , Body := inputs.Body }

/-- `Storage.executeRequestNoEncode`: build (no body encoding), then
send and classify. -/
def executeRequestNoEncode {β : Type} (env : Env β) (client : Client) (inputs : RequestNoEncodeInput) : ExecResult :=
  match buildRequestNoEncode env client inputs with
  | .ret r => .ret r
  | .panicked => .panicked
  | .built req => .ret (finishRequest env client req)

/-- Status code carried by an error value, looking through wrappers:
`some` only for a (wrapped) `MantaError`. -/
def statusOf : GoError → Option Nat
  | .simple _ => none
  | .wrapped _ inner => statusOf inner
  | .mantaErr e => some e.StatusCode

/-- Wellformedness of a caller-built Go header map: keys canonical (as
`http.Header.Set` and `Add` store them) and pairwise distinct (map
semantics). -/
def wfHeaderMap (hs : HeaderMap) : Prop :=
  (∀ p ∈ hs, canonicalMIMEHeaderKey p.1 = p.1) ∧ hs.Pairwise (fun p q => p.1 ≠ q.1)

/-- Wellformedness of the optional caller header map. -/
def wfOptHeaders : Option HeaderMap → Prop
  | none => True
  | some hs => wfHeaderMap hs

lemma headerGet_congr_find (h₁ h₂ : HeaderMap) (k : String)
    (h : h₁.find? (fun p => p.1 == canonicalMIMEHeaderKey k)
       = h₂.find? (fun p => p.1 == canonicalMIMEHeaderKey k)) :
    headerGet h₁ k = headerGet h₂ k := by
  unfold headerGet
  rw [h]

lemma find_setEntry_self (h : HeaderMap) (ck v : String) :
    (setEntry h ck v).find? (fun p => p.1 == ck) = some (ck, [v]) := by
  induction h with
  | nil => simp [setEntry, List.find?_cons]
  | cons p t ih =>
    by_cases hp : p.1 = ck
    · have h1 : (p.1 == ck) = true := beq_iff_eq.mpr hp
      simp [setEntry, h1, List.find?_cons]
    · have h1 : (p.1 == ck) = false := by simpa using hp
      simp [setEntry, h1, List.find?_cons, ih]

lemma find_setEntry_other (h : HeaderMap) (ck ck' v : String) (hne : ck' ≠ ck) :
    (setEntry h ck v).find? (fun p => p.1 == ck')
      = h.find? (fun p => p.1 == ck') := by
  induction h with
  | nil =>
    have h2 : (ck == ck') = false := by simpa using (Ne.symm hne)
    simp [setEntry, List.find?_cons, h2]
  | cons p t ih =>
    by_cases hp : p.1 = ck
    · have h1 : (p.1 == ck) = true := beq_iff_eq.mpr hp
      have h2 : (ck == ck') = false := by simpa using (Ne.symm hne)
      have h3 : (p.1 == ck') = false := by rw [hp]; exact h2
      simp [setEntry, h1, List.find?_cons, h2, h3]
    · have h1 : (p.1 == ck) = false := by simpa using hp
      by_cases hq : p.1 = ck'
      · have h2 : (p.1 == ck') = true := beq_iff_eq.mpr hq
        simp [setEntry, h1, List.find?_cons, h2]
      · have h2 : (p.1 == ck') = false := by simpa using hq
        simp [setEntry, h1, List.find?_cons, h2, ih]

lemma headerGet_headerSet_self (h : HeaderMap) (k k' v : String)
    (hk : canonicalMIMEHeaderKey k' = canonicalMIMEHeaderKey k) :
    headerGet (headerSet h k v) k' = v := by
  unfold headerGet headerSet
  rw [hk, find_setEntry_self]

lemma headerGet_headerSet_other (h : HeaderMap) (k k' v : String)
    (hk : canonicalMIMEHeaderKey k' ≠ canonicalMIMEHeaderKey k) :
    headerGet (headerSet h k v) k' = headerGet h k' := by
  apply headerGet_congr_find
  unfold headerSet
  exact find_setEntry_other h _ _ v hk

lemma headerGet_setValues_other (h : HeaderMap) (k k' : String) (vs : List String)
    (hk : canonicalMIMEHeaderKey k' ≠ canonicalMIMEHeaderKey k) :
    headerGet (setValues h k vs) k' = headerGet h k' := by
  induction vs generalizing h with
  | nil => rfl
  | cons v t ih =>
    show headerGet (setValues (headerSet h k v) k t) k' = headerGet h k'
    rw [ih (headerSet h k v), headerGet_headerSet_other h k k' v hk]

lemma headerGet_setValues_self (h : HeaderMap) (k k' : String) (vs : List String)
    (hk : canonicalMIMEHeaderKey k' = canonicalMIMEHeaderKey k) :
    headerGet (setValues h k vs) k' = vs.getLastD (headerGet h k') := by
  induction vs generalizing h with
  | nil => rfl
  | cons v t ih =>
    show headerGet (setValues (headerSet h k v) k t) k' = (v :: t).getLastD (headerGet h k')
    rw [ih (headerSet h k v), headerGet_headerSet_self h k k' v hk, List.getLastD_cons]

lemma headerGet_mergeHeaders_other (h : HeaderMap) (hs : HeaderMap) (k : String)
    (hk : ∀ p ∈ hs, canonicalMIMEHeaderKey k ≠ canonicalMIMEHeaderKey p.1) :
    headerGet (mergeHeaders h hs) k = headerGet h k := by
  induction hs generalizing h with
  | nil => rfl
  | cons p t ih =>
    show headerGet (mergeHeaders (setValues h p.1 p.2) t) k = headerGet h k
    rw [ih (setValues h p.1 p.2) (fun q hq => hk q (List.mem_cons_of_mem p hq)),
        headerGet_setValues_other h p.1 k p.2 (hk p (List.mem_cons_self p t))]

lemma headerGet_mergeHeaders_entry (h : HeaderMap) (hs : HeaderMap) (k K : String)
    (vs : List String) (hwf : wfHeaderMap hs) (hmem : (K, vs) ∈ hs)
    (hk : canonicalMIMEHeaderKey k = K) :
    headerGet (mergeHeaders h hs) k = vs.getLastD (headerGet h k) := by
  induction hs generalizing h with
  | nil => simp at hmem
  | cons p t ih =>
    obtain ⟨hcanon, hpair⟩ := hwf
    have hpairt := List.pairwise_cons.mp hpair
    show headerGet (mergeHeaders (setValues h p.1 p.2) t) k = vs.getLastD (headerGet h k)
    rcases List.mem_cons.mp hmem with heq | hmem'
    · have hK : ∀ q ∈ t, canonicalMIMEHeaderKey k ≠ canonicalMIMEHeaderKey q.1 := by
        intro q hq
        rw [hcanon q (List.mem_cons_of_mem p hq), hk]
        have hpq : p.1 ≠ q.1 := hpairt.1 q hq
        rw [← heq] at hpq
        exact hpq
      have hcanonK : canonicalMIMEHeaderKey K = K := by
        have hc := hcanon p (List.mem_cons_self p t)
        rw [← heq] at hc
        exact hc
      rw [headerGet_mergeHeaders_other _ t k hK, ← heq]
      exact headerGet_setValues_self h K k vs (by rw [hk, hcanonK])
    · have hne : canonicalMIMEHeaderKey k ≠ canonicalMIMEHeaderKey p.1 := by
        rw [hcanon p (List.mem_cons_self p t), hk]
        exact fun hKp => (hpairt.1 (K, vs) hmem') hKp.symm
      rw [ih (setValues h p.1 p.2) ⟨fun q hq => hcanon q (List.mem_cons_of_mem p hq), hpairt.2⟩
            hmem',
          headerGet_setValues_other h p.1 k p.2 hne]

lemma getLastD_of_ne_nil (vs : List String) (h : vs ≠ []) (a b : String) :
    vs.getLastD a = vs.getLastD b := by
  cases vs with
  | nil => exact absurd rfl h
  | cons v t => rw [List.getLastD_cons, List.getLastD_cons]

lemma canon_date : canonicalMIMEHeaderKey "date" = "Date" := by decide

lemma canon_Date : canonicalMIMEHeaderKey "Date" = "Date" := by decide

lemma canon_Authorization : canonicalMIMEHeaderKey "Authorization" = "Authorization" := by decide

lemma canon_Accept : canonicalMIMEHeaderKey "Accept" = "Accept" := by decide

lemma canon_UserAgent : canonicalMIMEHeaderKey "User-Agent" = "User-Agent" := by decide

lemma canon_ContentType : canonicalMIMEHeaderKey "Content-Type" = "Content-Type" := by decide

lemma signedHeader_get_date (hdr : HeaderMap) (now auth : String) :
    headerGet (signedHeader hdr now auth) "Date" = now := by
  unfold signedHeader
  rw [headerGet_headerSet_other _ _ _ _ (by rw [canon_Date, canon_UserAgent]; decide),
      headerGet_headerSet_other _ _ _ _ (by rw [canon_Date, canon_Accept]; decide),
      headerGet_headerSet_other _ _ _ _ (by rw [canon_Date, canon_Authorization]; decide),
      headerGet_headerSet_self _ _ _ _ (by rw [canon_Date, canon_date])]

lemma signedHeader_get_auth (hdr : HeaderMap) (now auth : String) :
    headerGet (signedHeader hdr now auth) "Authorization" = auth := by
  unfold signedHeader
  rw [headerGet_headerSet_other _ _ _ _ (by rw [canon_Authorization, canon_UserAgent]; decide),
      headerGet_headerSet_other _ _ _ _ (by rw [canon_Authorization, canon_Accept]; decide),
      headerGet_headerSet_self _ _ _ _ rfl]

lemma signedHeader_get_accept (hdr : HeaderMap) (now auth : String) :
    headerGet (signedHeader hdr now auth) "Accept" = "*/*" := by
  unfold signedHeader
  rw [headerGet_headerSet_other _ _ _ _ (by rw [canon_Accept, canon_UserAgent]; decide),
      headerGet_headerSet_self _ _ _ _ rfl]

lemma signedHeader_get_userAgent (hdr : HeaderMap) (now auth : String) :
    headerGet (signedHeader hdr now auth) "User-Agent" = "manta-go client API" := by
  unfold signedHeader
  rw [headerGet_headerSet_self _ _ _ _ rfl]

lemma buildRequest_built_inv {β : Type} {env : Env β} {client : Client}
    {inputs : RequestInput β} {req : Request}
    (h : buildRequest env client inputs = .built req) :
    ∃ requestBody endpoint0 signer rest authHeader,
      (match inputs.Body with
       | none => Except.ok (none : Option (List Nat))
       | some b => (env.marshalIndent b "" "    ").map some) = .ok requestBody ∧
      env.parseURL env.mantaURL = .ok endpoint0 ∧
      validMethod (effectiveMethod inputs.Method) = true ∧
      client.Authorizers = signer :: rest ∧
      signer.Sign env.now = .ok authHeader ∧
      req = { Method := effectiveMethod inputs.Method
            , URL := (match inputs.Query with
                      | none => ⟨endpoint0.Base, inputs.Path, endpoint0.RawQuery⟩
                      | some q => ⟨endpoint0.Base, inputs.Path, env.encodeQuery q⟩)
            , Header := signedHeader (mergedHeader (defaultCTHeader inputs) inputs.Headers)
                env.now authHeader
            , Body := requestBody } := by
  simp only [buildRequest] at h
  split at h
  · cases h
  · rename_i requestBody hmar
    split at h
    · cases h
    · rename_i endpoint0 hurl
      split at h
      · cases h
      · rename_i hvm
        split at h
        · cases h
        · rename_i signer rest hauth
          split at h
          · cases h
          · rename_i authHeader hsig
            refine ⟨requestBody, endpoint0, signer, rest, authHeader, hmar, hurl, ?_, hauth,
              hsig, ?_⟩
            · simpa using hvm
            · cases h
              cases hq : inputs.Query <;> simp [hq]

lemma buildRequestNoEncode_built_inv {β : Type} {env : Env β} {client : Client}
    {inputs : RequestNoEncodeInput} {req : Request}
    (h : buildRequestNoEncode env client inputs = .built req) :
    ∃ endpoint0 signer rest authHeader,
      env.parseURL env.mantaURL = .ok endpoint0 ∧
      validMethod (effectiveMethod inputs.Method) = true ∧
      client.Authorizers = signer :: rest ∧
      signer.Sign env.now = .ok authHeader ∧
      req = { Method := effectiveMethod inputs.Method
            , URL := (match inputs.Query with
                      | none => ⟨endpoint0.Base, inputs.Path, endpoint0.RawQuery⟩
                      | some q => ⟨endpoint0.Base, inputs.Path, env.encodeQuery q⟩)
            , Header := signedHeader (mergedHeader [] inputs.Headers) env.now authHeader
            , Body := inputs.Body } := by
  simp only [buildRequestNoEncode] at h
  split at h
  · cases h
  · rename_i endpoint0 hurl
    split at h
    · cases h
    · rename_i hvm
      split at h
      · cases h
      · rename_i signer rest hauth
        split at h
        · cases h
        · rename_i authHeader hsig
          refine ⟨endpoint0, signer, rest, authHeader, hurl, ?_, hauth, hsig, ?_⟩
          · simpa using hvm
          · cases h
            cases hq : inputs.Query <;> simp [hq]

lemma buildRequest_ret_nil {β : Type} {env : Env β} {client : Client}
    {inputs : RequestInput β} {r : GoReturn}
    (h : buildRequest env client inputs = .ret r) :
    r.body = none ∧ r.header = none ∧ r.err.isSome = true := by
  simp only [buildRequest] at h
  repeat' split at h
  all_goals cases h
  all_goals exact ⟨rfl, rfl, rfl⟩

lemma buildRequestNoEncode_ret_nil {β : Type} {env : Env β} {client : Client}
    {inputs : RequestNoEncodeInput} {r : GoReturn}
    (h : buildRequestNoEncode env client inputs = .ret r) :
    r.body = none ∧ r.header = none ∧ r.err.isSome = true := by
  simp only [buildRequestNoEncode] at h
  repeat' split at h
  all_goals cases h
  all_goals exact ⟨rfl, rfl, rfl⟩

lemma finishRequest_shape {β : Type} (env : Env β) (client : Client) (req : Request) :
    (∃ e, finishRequest env client req = ⟨none, none, some e⟩) ∨
    (∃ resp, client.HTTPClient req = .ok resp ∧
      (200 ≤ resp.StatusCode ∧ resp.StatusCode < 300) ∧
      finishRequest env client req = ⟨some resp.Body, some resp.Header, none⟩) := by
  unfold finishRequest
  split
  · exact .inl ⟨_, rfl⟩
  · rename_i resp hresp
    split
    · rename_i hst
      exact .inr ⟨resp, hresp, hst, rfl⟩
    · split
      · exact .inl ⟨_, rfl⟩
      · exact .inl ⟨_, rfl⟩

lemma signedHeader_get_other (hdr : HeaderMap) (now auth k : String)
    (h1 : canonicalMIMEHeaderKey k ≠ "Date")
    (h2 : canonicalMIMEHeaderKey k ≠ "Authorization")
    (h3 : canonicalMIMEHeaderKey k ≠ "Accept")
    (h4 : canonicalMIMEHeaderKey k ≠ "User-Agent") :
    headerGet (signedHeader hdr now auth) k = headerGet hdr k := by
  unfold signedHeader
  rw [headerGet_headerSet_other _ _ _ _ (by rw [canon_UserAgent]; exact h4),
      headerGet_headerSet_other _ _ _ _ (by rw [canon_Accept]; exact h3),
      headerGet_headerSet_other _ _ _ _ (by rw [canon_Authorization]; exact h2),
      headerGet_headerSet_other _ _ _ _ (by rw [canon_date]; exact h1)]

/-- Concrete environment used to exercise the theorems on closed
inputs. -/
def envW : Env Unit :=
  { mantaURL := "https://us-east.manta.example.com"
  , parseURL := fun s => .ok ⟨s, "", ""⟩
  , now := "Mon, 02 Jan 2006 15:04:05 UTC"
  , marshalIndent := fun _ _ _ => .ok [123, 125]
  , encodeQuery := fun _ => ""
  , decodeMantaError := fun _ => .ok ("ResourceNotFound", "no such object") }

/-- Concrete signer for closed inputs. -/
def signerW : Signer := ⟨fun d => .ok ("Signature keyId date=" ++ d)⟩

/-- Concrete 404 response. -/
def resp404 : Response := ⟨404, [101], []⟩

/-- Concrete 200 response. -/
def resp200 : Response := ⟨200, [104, 105], [("Content-Length", ["2"])]⟩

/-- Concrete 500 response. -/
def resp500 : Response := ⟨500, [60], []⟩

/-- Client whose transport always yields the given response. -/
def clientOf (resp : Response) : Client := ⟨[signerW], fun _ => .ok resp⟩

/-- Concrete structured-body request descriptor. -/
def inputsW : RequestInput Unit := ⟨"POST", "/acct/jobs", none, none, some ()⟩

/-- Concrete pre-encoded request descriptor. -/
def inputsNoEnc : RequestNoEncodeInput :=
  ⟨"PUT", "/acct/stor/obj.txt", none, none, some [104, 105]⟩

/-- The request `buildRequest` builds from `envW` and `inputsW`. -/
def reqW : Request :=
  { Method := "POST"
  , URL := ⟨"https://us-east.manta.example.com", "/acct/jobs", ""⟩
  , Header :=
      [ ("Content-Type", ["application/json"])
      , ("Date", ["Mon, 02 Jan 2006 15:04:05 UTC"])
      , ("Authorization", ["Signature keyId date=Mon, 02 Jan 2006 15:04:05 UTC"])
      , ("Accept", ["*/*"])
      , ("User-Agent", ["manta-go client API"]) ]
  , Body := some [123, 125] }

/-- The request `buildRequestNoEncode` builds from `envW` and
`inputsNoEnc`. -/
def reqNoEnc : Request :=
  { Method := "PUT"
  , URL := ⟨"https://us-east.manta.example.com", "/acct/stor/obj.txt", ""⟩
  , Header :=
      [ ("Date", ["Mon, 02 Jan 2006 15:04:05 UTC"])
      , ("Authorization", ["Signature keyId date=Mon, 02 Jan 2006 15:04:05 UTC"])
      , ("Accept", ["*/*"])
      , ("User-Agent", ["manta-go client API"]) ]
  , Body := some [104, 105] }

lemma executeRequest_built {β : Type} {env : Env β} {client : Client}
    {inputs : RequestInput β} {req : Request}
    (h : buildRequest env client inputs = .built req) :
    executeRequest env client inputs = .ret (finishRequest env client req) := by
  unfold executeRequest
  rw [h]

lemma executeRequestNoEncode_built {β : Type} {env : Env β} {client : Client}
    {inputs : RequestNoEncodeInput} {req : Request}
    (h : buildRequestNoEncode env client inputs = .built req) :
    executeRequestNoEncode env client inputs = .ret (finishRequest env client req) := by
  unfold executeRequestNoEncode
  rw [h]

/-- C1: for every response with a status code outside [200,300) whose
body decodes successfully, `executeRequest` and
`executeRequestNoEncode` fail with a `MantaError` whose status-code
field is the response's exact status code and whose remaining fields
are the decoded payload fields. -/
theorem executeRequest_non2xx_mantaError {β : Type} (env : Env β) (client : Client)
    (resp : Response) (c m : String)
    (hstatus : ¬(200 ≤ resp.StatusCode ∧ resp.StatusCode < 300))
    (hdec : env.decodeMantaError resp.Body = .ok (c, m)) :
    (∀ (inputs : RequestInput β) (req : Request),
        buildRequest env client inputs = .built req →
        client.HTTPClient req = .ok resp →
        executeRequest env client inputs =
          .ret ⟨none, none, some (.mantaErr ⟨resp.StatusCode, c, m⟩)⟩) ∧
    (∀ (inputs : RequestNoEncodeInput) (req : Request),
        buildRequestNoEncode env client inputs = .built req →
        client.HTTPClient req = .ok resp →
        executeRequestNoEncode env client inputs =
          .ret ⟨none, none, some (.mantaErr ⟨resp.StatusCode, c, m⟩)⟩) := by
  constructor
  · intro inputs req hbuild hdo
    rw [executeRequest_built hbuild]
    unfold finishRequest
    simp only [hdo, if_neg hstatus, hdec]
  · intro inputs req hbuild hdo
    rw [executeRequestNoEncode_built hbuild]
    unfold finishRequest
    simp only [hdo, if_neg hstatus, hdec]

/-- Witness for C1 at a concrete 404 response. -/
theorem executeRequest_non2xx_mantaError_witness :
    executeRequest envW (clientOf resp404) inputsW =
      .ret ⟨none, none, some (.mantaErr ⟨404, "ResourceNotFound", "no such object"⟩)⟩ :=
  (executeRequest_non2xx_mantaError envW (clientOf resp404) resp404
      "ResourceNotFound" "no such object" (by decide) rfl).1 inputsW reqW rfl rfl

/-- C7: for every response with a status code in [200,300), the call
succeeds, returning exactly the response body bytes and the response
headers, unchanged. -/
theorem executeRequest_2xx_success {β : Type} (env : Env β) (client : Client)
    (resp : Response)
    (hstatus : 200 ≤ resp.StatusCode ∧ resp.StatusCode < 300) :
    (∀ (inputs : RequestInput β) (req : Request),
        buildRequest env client inputs = .built req →
        client.HTTPClient req = .ok resp →
        executeRequest env client inputs =
          .ret ⟨some resp.Body, some resp.Header, none⟩) ∧
    (∀ (inputs : RequestNoEncodeInput) (req : Request),
        buildRequestNoEncode env client inputs = .built req →
        client.HTTPClient req = .ok resp →
        executeRequestNoEncode env client inputs =
          .ret ⟨some resp.Body, some resp.Header, none⟩) := by
  constructor
  · intro inputs req hbuild hdo
    rw [executeRequest_built hbuild]
    unfold finishRequest
    simp only [hdo, if_pos hstatus]
  · intro inputs req hbuild hdo
    rw [executeRequestNoEncode_built hbuild]
    unfold finishRequest
    simp only [hdo, if_pos hstatus]

/-- Witness for C7 at a concrete 200 response. -/
theorem executeRequest_2xx_success_witness :
    executeRequest envW (clientOf resp200) inputsW =
      .ret ⟨some [104, 105], some [("Content-Length", ["2"])], none⟩ :=
  (executeRequest_2xx_success envW (clientOf resp200) resp200
      (by decide)).1 inputsW reqW rfl rfl

/-- C10: on every failure path of either function, the returned body
stream and the returned headers are both nil. -/
theorem failure_returns_nil {β : Type} (env : Env β) (client : Client) :
    (∀ (inputs : RequestInput β) (r : GoReturn),
        executeRequest env client inputs = .ret r → r.err.isSome = true →
        r.body = none ∧ r.header = none) ∧
    (∀ (inputs : RequestNoEncodeInput) (r : GoReturn),
        executeRequestNoEncode env client inputs = .ret r → r.err.isSome = true →
        r.body = none ∧ r.header = none) := by
  constructor
  · intro inputs r h he
    unfold executeRequest at h
    cases hb : buildRequest env client inputs with
    | ret r0 =>
      rw [hb] at h
      cases h
      have hh := buildRequest_ret_nil hb
      exact ⟨hh.1, hh.2.1⟩
    | panicked => rw [hb] at h; cases h
    | built req =>
      rw [hb] at h
      cases h
      rcases finishRequest_shape env client req with ⟨e, hf⟩ | ⟨resp, _, _, hf⟩
      · rw [hf]
        exact ⟨rfl, rfl⟩
      · rw [hf] at he
        cases he
  · intro inputs r h he
    unfold executeRequestNoEncode at h
    cases hb : buildRequestNoEncode env client inputs with
    | ret r0 =>
      rw [hb] at h
      cases h
      have hh := buildRequestNoEncode_ret_nil hb
      exact ⟨hh.1, hh.2.1⟩
    | panicked => rw [hb] at h; cases h
    | built req =>
      rw [hb] at h
      cases h
      rcases finishRequest_shape env client req with ⟨e, hf⟩ | ⟨resp, _, _, hf⟩
      · rw [hf]
        exact ⟨rfl, rfl⟩
      · rw [hf] at he
        cases he

/-- Witness for C10 at a concrete failing call. -/
theorem failure_returns_nil_witness :
    (⟨none, none, some (.mantaErr ⟨404, "ResourceNotFound", "no such object"⟩)⟩ : GoReturn).body
        = none ∧
    (⟨none, none, some (.mantaErr ⟨404, "ResourceNotFound", "no such object"⟩)⟩ : GoReturn).header
        = none :=
  (failure_returns_nil envW (clientOf resp404)).1 inputsW
    ⟨none, none, some (.mantaErr ⟨404, "ResourceNotFound", "no such object"⟩)⟩ rfl rfl

lemma buildRequest_cons_ne_panicked {β : Type} (env : Env β) (s : Signer)
    (rest : List Signer) (hdo : Request → Except String Response)
    (inputs : RequestInput β) :
    buildRequest env ⟨s :: rest, hdo⟩ inputs ≠ .panicked := by
  simp only [buildRequest]
  repeat' split
  all_goals simp_all

lemma buildRequestNoEncode_cons_ne_panicked {β : Type} (env : Env β) (s : Signer)
    (rest : List Signer) (hdo : Request → Except String Response)
    (inputs : RequestNoEncodeInput) :
    buildRequestNoEncode env ⟨s :: rest, hdo⟩ inputs ≠ .panicked := by
  simp only [buildRequestNoEncode]
  repeat' split
  all_goals simp_all

lemma executeRequest_cons_ne_panicked {β : Type} (env : Env β) (s : Signer)
    (rest : List Signer) (hdo : Request → Except String Response)
    (inputs : RequestInput β) :
    executeRequest env ⟨s :: rest, hdo⟩ inputs ≠ .panicked := by
  unfold executeRequest
  cases hb : buildRequest env ⟨s :: rest, hdo⟩ inputs with
  | ret r => simp
  | panicked => exact absurd hb (buildRequest_cons_ne_panicked env s rest hdo inputs)
  | built req => simp

lemma executeRequestNoEncode_cons_ne_panicked {β : Type} (env : Env β) (s : Signer)
    (rest : List Signer) (hdo : Request → Except String Response)
    (inputs : RequestNoEncodeInput) :
    executeRequestNoEncode env ⟨s :: rest, hdo⟩ inputs ≠ .panicked := by
  unfold executeRequestNoEncode
  cases hb : buildRequestNoEncode env ⟨s :: rest, hdo⟩ inputs with
  | ret r => simp
  | panicked => exact absurd hb (buildRequestNoEncode_cons_ne_panicked env s rest hdo inputs)
  | built req => simp

/-- C9: both functions read only `Authorizers[0]`: with a non-empty
signer list the index access is safe and any further configured signers
are ignored; whenever the phases before signing succeed (body
marshalled, `MANTA_URL` parsed, method valid), an empty list drives the
call into the out-of-bounds index, so a non-empty list is a
precondition of every call. -/
theorem authorizers_first_only {β : Type} (env : Env β) :
    (∀ (inputs : RequestInput β) (s : Signer) (rest : List Signer)
        (hdo : Request → Except String Response),
        executeRequest env ⟨s :: rest, hdo⟩ inputs ≠ .panicked) ∧
    (∀ (inputs : RequestInput β) (s : Signer) (rest₁ rest₂ : List Signer)
        (hdo : Request → Except String Response),
        executeRequest env ⟨s :: rest₁, hdo⟩ inputs
          = executeRequest env ⟨s :: rest₂, hdo⟩ inputs) ∧
    (∀ (inputs : RequestInput β) (hdo : Request → Except String Response),
        (match inputs.Body with
         | none => Except.ok (none : Option (List Nat))
         | some b => (env.marshalIndent b "" "    ").map some).isOk = true →
        (env.parseURL env.mantaURL).isOk = true →
        validMethod (effectiveMethod inputs.Method) = true →
        executeRequest env ⟨[], hdo⟩ inputs = .panicked) ∧
    (∀ (inputs : RequestNoEncodeInput) (s : Signer) (rest : List Signer)
        (hdo : Request → Except String Response),
        executeRequestNoEncode env ⟨s :: rest, hdo⟩ inputs ≠ .panicked) ∧
    (∀ (inputs : RequestNoEncodeInput) (s : Signer) (rest₁ rest₂ : List Signer)
        (hdo : Request → Except String Response),
        executeRequestNoEncode env ⟨s :: rest₁, hdo⟩ inputs
          = executeRequestNoEncode env ⟨s :: rest₂, hdo⟩ inputs) ∧
    (∀ (inputs : RequestNoEncodeInput) (hdo : Request → Except String Response),
        (env.parseURL env.mantaURL).isOk = true →
        validMethod (effectiveMethod inputs.Method) = true →
        executeRequestNoEncode env ⟨[], hdo⟩ inputs = .panicked) := by
  refine ⟨fun inputs s rest hdo => executeRequest_cons_ne_panicked env s rest hdo inputs,
    fun _ _ _ _ _ => rfl, ?_,
    fun inputs s rest hdo => executeRequestNoEncode_cons_ne_panicked env s rest hdo inputs,
    fun _ _ _ _ _ => rfl, ?_⟩
  · intro inputs hdo hm hp hv
    cases hmm : (match inputs.Body with
                 | none => Except.ok (none : Option (List Nat))
                 | some b => (env.marshalIndent b "" "    ").map some) with
    | error e => rw [hmm] at hm; simp [Except.isOk, Except.toBool] at hm
    | ok rb =>
      cases hpp : env.parseURL env.mantaURL with
      | error e => rw [hpp] at hp; simp [Except.isOk, Except.toBool] at hp
      | ok u =>
        have hv2 : ¬ (validMethod (effectiveMethod inputs.Method) = false) := by simp [hv]
        simp only [executeRequest, buildRequest, hmm, hpp, if_neg hv2]
  · intro inputs hdo hp hv
    cases hpp : env.parseURL env.mantaURL with
    | error e => rw [hpp] at hp; simp [Except.isOk, Except.toBool] at hp
    | ok u =>
      have hv2 : ¬ (validMethod (effectiveMethod inputs.Method) = false) := by simp [hv]
      simp only [executeRequestNoEncode, buildRequestNoEncode, hpp, if_neg hv2]

/-- Witness for C9 at a concrete call with one configured signer. -/
theorem authorizers_first_only_witness :
    executeRequest envW ⟨signerW :: [], fun _ => .ok resp404⟩ inputsW ≠ .panicked :=
  (authorizers_first_only envW).1 inputsW signerW [] (fun _ => .ok resp404)

/-- Environment whose error-body decoding fails. -/
def envDecodeFail : Env Unit :=
  { envW with decodeMantaError := fun _ => .error "invalid character" }

/-- C5 counterexample: at this concrete call the transport returns
status 500 with an undecodable error body, and the call fails with only
the wrapped decode error; that error carries no status code
(`statusOf` is `none`), so the response's status code is not surfaced
to the caller, contrary to the claim. -/
theorem decode_failure_status_lost_cex :
    executeRequest envDecodeFail (clientOf resp500) inputsW =
      .ret ⟨none, none, some (.wrapped "Error decoding error response: \x7b\x7berr\x7d\x7d"
        (.simple "invalid character"))⟩ ∧
    resp500.StatusCode = 500 ∧
    statusOf (.wrapped "Error decoding error response: \x7b\x7berr\x7d\x7d"
      (.simple "invalid character")) = none :=
  ⟨rfl, rfl, rfl⟩

/-- C5 amended: for every non-2xx response whose error body fails to
decode, the call fails with the wrapped decode error, which is distinct
from any service error; that decode error does not carry the response
status code, so the status code is not surfaced to the caller. -/
theorem decode_failure_amended {β : Type} (env : Env β) (client : Client)
    (resp : Response) (e : String)
    (hstatus : ¬(200 ≤ resp.StatusCode ∧ resp.StatusCode < 300))
    (hdec : env.decodeMantaError resp.Body = .error e) :
    (∀ (inputs : RequestInput β) (req : Request),
        buildRequest env client inputs = .built req →
        client.HTTPClient req = .ok resp →
        executeRequest env client inputs =
          .ret ⟨none, none, some (.wrapped "Error decoding error response: \x7b\x7berr\x7d\x7d"
            (.simple e))⟩) ∧
    (∀ (inputs : RequestNoEncodeInput) (req : Request),
        buildRequestNoEncode env client inputs = .built req →
        client.HTTPClient req = .ok resp →
        executeRequestNoEncode env client inputs =
          .ret ⟨none, none, some (.wrapped "Error decoding error response: \x7b\x7berr\x7d\x7d"
            (.simple e))⟩) ∧
    (∀ me : MantaError,
        (GoError.wrapped "Error decoding error response: \x7b\x7berr\x7d\x7d" (.simple e))
          ≠ .mantaErr me) ∧
    statusOf (.wrapped "Error decoding error response: \x7b\x7berr\x7d\x7d" (.simple e))
      = none := by
  refine ⟨?_, ?_, ?_, rfl⟩
  · intro inputs req hbuild hdo
    rw [executeRequest_built hbuild]
    unfold finishRequest
    simp only [hdo, if_neg hstatus, hdec]
  · intro inputs req hbuild hdo
    rw [executeRequestNoEncode_built hbuild]
    unfold finishRequest
    simp only [hdo, if_neg hstatus, hdec]
  · intro me h
    cases h

/-- Witness for the amended C5 at a concrete 500 response. -/
theorem decode_failure_amended_witness :
    executeRequest envDecodeFail (clientOf resp500) inputsW =
      .ret ⟨none, none, some (.wrapped "Error decoding error response: \x7b\x7berr\x7d\x7d"
        (.simple "invalid character"))⟩ :=
  (decode_failure_amended envDecodeFail (clientOf resp500) resp500 "invalid character"
      (by decide) rfl).1 inputsW reqW rfl rfl

/-- C6: `executeRequestNoEncode` passes the pre-encoded stream through
unchanged: the outbound request body equals the input stream's bytes
exactly, with no re-encoding, and the executor sets no Content-Type
header (none is present unless the caller supplied one). -/
theorem noEncode_passthrough {β : Type} (env : Env β) (client : Client)
    (inputs : RequestNoEncodeInput) (req : Request)
    (hbuild : buildRequestNoEncode env client inputs = .built req) :
    req.Body = inputs.Body ∧
    (inputs.Headers = none → headerGet req.Header "Content-Type" = "") ∧
    (∀ hs, inputs.Headers = some hs →
        (∀ p ∈ hs, canonicalMIMEHeaderKey p.1 ≠ "Content-Type") →
        headerGet req.Header "Content-Type" = "") := by
  obtain ⟨endpoint0, signer, rest, authHeader, hurl, hvm, hauth, hsig, hreq⟩ :=
    buildRequestNoEncode_built_inv hbuild
  subst hreq
  refine ⟨rfl, ?_, ?_⟩
  · intro hnone
    show headerGet (signedHeader (mergedHeader [] inputs.Headers) env.now authHeader)
        "Content-Type" = ""
    rw [signedHeader_get_other _ _ _ _ (by rw [canon_ContentType]; decide)
        (by rw [canon_ContentType]; decide) (by rw [canon_ContentType]; decide)
        (by rw [canon_ContentType]; decide), hnone]
    rfl
  · intro hs hhs hnoct
    show headerGet (signedHeader (mergedHeader [] inputs.Headers) env.now authHeader)
        "Content-Type" = ""
    rw [signedHeader_get_other _ _ _ _ (by rw [canon_ContentType]; decide)
        (by rw [canon_ContentType]; decide) (by rw [canon_ContentType]; decide)
        (by rw [canon_ContentType]; decide), hhs]
    show headerGet (mergeHeaders [] hs) "Content-Type" = ""
    rw [headerGet_mergeHeaders_other [] hs "Content-Type"
        (fun p hp => by rw [canon_ContentType]; exact (hnoct p hp).symm)]
    rfl

/-- Witness for C6 at a concrete pre-encoded call. -/
theorem noEncode_passthrough_witness :
    reqNoEnc.Body = inputsNoEnc.Body ∧ headerGet reqNoEnc.Header "Content-Type" = "" := by
  have h := noEncode_passthrough envW (clientOf resp200) inputsNoEnc reqNoEnc rfl
  exact ⟨h.1, h.2.1 rfl⟩

/-- C8: the outbound endpoint is the parsed `MANTA_URL` base URL (read
from the execution environment) with the descriptor path substituted;
when query parameters are provided their encoding becomes the URL's
query string; and a malformed `MANTA_URL` fails the call with the
configuration error. -/
theorem executeRequest_endpoint {β : Type} (env : Env β) (client : Client)
    (inputs : RequestInput β) :
    (∀ e, (match inputs.Body with
           | none => Except.ok (none : Option (List Nat))
           | some b => (env.marshalIndent b "" "    ").map some).isOk = true →
        env.parseURL env.mantaURL = .error e →
        executeRequest env client inputs =
          .ret ⟨none, none, some (.wrapped "Error parsing MANTA_URL: \x7b\x7berr\x7d\x7d"
            (.simple e))⟩) ∧
    (∀ u req, env.parseURL env.mantaURL = .ok u →
        buildRequest env client inputs = .built req →
        req.URL.Base = u.Base ∧ req.URL.Path = inputs.Path ∧
        req.URL.RawQuery = (match inputs.Query with
                            | none => u.RawQuery
                            | some q => env.encodeQuery q)) := by
  constructor
  · intro e hm hurl
    cases hmm : (match inputs.Body with
                 | none => Except.ok (none : Option (List Nat))
                 | some b => (env.marshalIndent b "" "    ").map some) with
    | error e2 => rw [hmm] at hm; simp [Except.isOk, Except.toBool] at hm
    | ok rb => simp only [executeRequest, buildRequest, hmm, hurl]
  · intro u req hurl hbuild
    obtain ⟨rb, endpoint0, signer, rest, authHeader, hmar, hurl2, hvm, hauth, hsig, hreq⟩ :=
      buildRequest_built_inv hbuild
    rw [hurl] at hurl2
    cases hurl2
    subst hreq
    cases hq : inputs.Query with
    | none => simp [hq]
    | some q => simp [hq]

/-- Witness for C8 at a concrete malformed base URL. -/
theorem executeRequest_endpoint_witness :
    executeRequest { envW with parseURL := fun _ => .error "parse error" }
        (clientOf resp200) inputsW =
      .ret ⟨none, none, some (.wrapped "Error parsing MANTA_URL: \x7b\x7berr\x7d\x7d"
        (.simple "parse error"))⟩ :=
  (executeRequest_endpoint { envW with parseURL := fun _ => .error "parse error" }
      (clientOf resp200) inputsW).1 "parse error" rfl rfl

lemma built_date_sign {β : Type} {env : Env β} {client : Client}
    {inputs : RequestInput β} {s : Signer} {rest : List Signer} {req : Request}
    (hA : client.Authorizers = s :: rest)
    (hbuild : buildRequest env client inputs = .built req) :
    headerGet req.Header "Date" = env.now ∧
    s.Sign env.now = .ok (headerGet req.Header "Authorization") := by
  obtain ⟨rb, endpoint0, signer, rest0, authHeader, hmar, hurl, hvm, hauth, hsig, hreq⟩ :=
    buildRequest_built_inv hbuild
  rw [hA] at hauth
  injection hauth with h1 h2
  subst hreq
  refine ⟨signedHeader_get_date _ _ _, ?_⟩
  show s.Sign env.now
      = .ok (headerGet (signedHeader (mergedHeader (defaultCTHeader inputs) inputs.Headers)
          env.now authHeader) "Authorization")
  rw [signedHeader_get_auth, h1]
  exact hsig

lemma builtNoEncode_date_sign {β : Type} {env : Env β} {client : Client}
    {inputs : RequestNoEncodeInput} {s : Signer} {rest : List Signer} {req : Request}
    (hA : client.Authorizers = s :: rest)
    (hbuild : buildRequestNoEncode env client inputs = .built req) :
    headerGet req.Header "Date" = env.now ∧
    s.Sign env.now = .ok (headerGet req.Header "Authorization") := by
  obtain ⟨endpoint0, signer, rest0, authHeader, hurl, hvm, hauth, hsig, hreq⟩ :=
    buildRequestNoEncode_built_inv hbuild
  rw [hA] at hauth
  injection hauth with h1 h2
  subst hreq
  refine ⟨signedHeader_get_date _ _ _, ?_⟩
  show s.Sign env.now
      = .ok (headerGet (signedHeader (mergedHeader [] inputs.Headers) env.now authHeader)
          "Authorization")
  rw [signedHeader_get_auth, h1]
  exact hsig

/-- C3: the date header is set before the signer runs: in every built
request the Date header equals the environment's date value, the
Authorization header is exactly the signer's output over that same
value, and two runs with the same date and the same signer output
produce the same Authorization header. -/
theorem date_then_sign {β₁ β₂ : Type} (env : Env β₁) (client : Client) :
    (∀ (inputs : RequestInput β₁) (s : Signer) (rest : List Signer) (req : Request),
        client.Authorizers = s :: rest →
        buildRequest env client inputs = .built req →
        headerGet req.Header "Date" = env.now ∧
        s.Sign env.now = .ok (headerGet req.Header "Authorization")) ∧
    (∀ (inputs : RequestNoEncodeInput) (s : Signer) (rest : List Signer) (req : Request),
        client.Authorizers = s :: rest →
        buildRequestNoEncode env client inputs = .built req →
        headerGet req.Header "Date" = env.now ∧
        s.Sign env.now = .ok (headerGet req.Header "Authorization")) ∧
    (∀ (env₂ : Env β₂) (client₂ : Client) (inputs₁ : RequestInput β₁)
        (inputs₂ : RequestInput β₂) (s₁ s₂ : Signer) (rest₁ rest₂ : List Signer)
        (req₁ req₂ : Request),
        client.Authorizers = s₁ :: rest₁ → client₂.Authorizers = s₂ :: rest₂ →
        env.now = env₂.now → s₁.Sign env.now = s₂.Sign env₂.now →
        buildRequest env client inputs₁ = .built req₁ →
        buildRequest env₂ client₂ inputs₂ = .built req₂ →
        headerGet req₁.Header "Authorization" = headerGet req₂.Header "Authorization") := by
  refine ⟨fun inputs s rest req hA hb => built_date_sign hA hb,
    fun inputs s rest req hA hb => builtNoEncode_date_sign hA hb, ?_⟩
  intro env₂ client₂ inputs₁ inputs₂ s₁ s₂ rest₁ rest₂ req₁ req₂ hA₁ hA₂ hnow hsame hb₁ hb₂
  have d₁ := (built_date_sign hA₁ hb₁).2
  have d₂ := (built_date_sign hA₂ hb₂).2
  rw [hsame, d₂] at d₁
  injection d₁ with h
  exact h.symm

/-- Witness for C3 at a concrete signed call. -/
theorem date_then_sign_witness :
    headerGet reqW.Header "Date" = envW.now ∧
    signerW.Sign envW.now = .ok (headerGet reqW.Header "Authorization") :=
  (@date_then_sign Unit Unit envW (clientOf resp404)).1 inputsW signerW [] reqW rfl rfl

/-- The application/json defaulting value of `executeRequest`: present
exactly when a structured body exists and the caller supplied no
content type. -/
def defaultCT {β : Type} (inputs : RequestInput β) : String :=
  if inputs.Body.isSome && (callerContentType inputs == "") then "application/json" else ""

/-- The Content-Type value the built request of `executeRequest` ends
up with: the caller's Content-Type entry decides (its last value wins,
since each value is Set in turn), with the application/json default as
fallback. -/
def finalContentType {β : Type} (inputs : RequestInput β) : String :=
  match inputs.Headers with
  | none => defaultCT inputs
  | some hs =>
    match hs.find? (fun p => p.1 == "Content-Type") with
    | none => defaultCT inputs
    | some p => p.2.getLastD (defaultCT inputs)

lemma headerGet_defaultCTHeader {β : Type} (inputs : RequestInput β) :
    headerGet (defaultCTHeader inputs) "Content-Type" = defaultCT inputs := by
  unfold defaultCTHeader defaultCT
  by_cases hc : (inputs.Body.isSome && (callerContentType inputs == "")) = true
  · rw [if_pos hc, if_pos hc]
    exact headerGet_headerSet_self [] _ _ _ rfl
  · rw [if_neg hc, if_neg hc]
    rfl

lemma headerGet_merged_CT {β : Type} (inputs : RequestInput β)
    (hwf : wfOptHeaders inputs.Headers) :
    headerGet (mergedHeader (defaultCTHeader inputs) inputs.Headers) "Content-Type"
      = finalContentType inputs := by
  simp only [finalContentType]
  cases hH : inputs.Headers with
  | none =>
    show headerGet (defaultCTHeader inputs) "Content-Type" = defaultCT inputs
    exact headerGet_defaultCTHeader inputs
  | some hs =>
    rw [hH] at hwf
    show headerGet (mergeHeaders (defaultCTHeader inputs) hs) "Content-Type"
      = (match hs.find? (fun p => p.1 == "Content-Type") with
         | none => defaultCT inputs
         | some p => p.2.getLastD (defaultCT inputs))
    cases hf : hs.find? (fun p => p.1 == "Content-Type") with
    | none =>
      have hnone : ∀ p ∈ hs,
          canonicalMIMEHeaderKey "Content-Type" ≠ canonicalMIMEHeaderKey p.1 := by
        intro p hp
        rw [canon_ContentType, hwf.1 p hp]
        intro hcc
        apply List.find?_eq_none.mp hf p hp
        rw [beq_iff_eq]
        exact hcc.symm
      rw [headerGet_mergeHeaders_other _ hs _ hnone]
      exact headerGet_defaultCTHeader inputs
    | some p =>
      obtain ⟨K, vs⟩ := p
      have hK : K = "Content-Type" := by
        have hpred := List.find?_some hf
        simpa [beq_iff_eq] using hpred
      have hmem := List.mem_of_find?_eq_some hf
      rw [hK] at hmem
      rw [headerGet_mergeHeaders_entry _ hs "Content-Type" "Content-Type" vs hwf hmem
          canon_ContentType, headerGet_defaultCTHeader]

/-- C2: with a structured body, the outbound request body is the
indented JSON serialisation of that value; the Content-Type header
defaults to application/json exactly when the caller supplied no
content type, and otherwise carries the caller's value (the entry's
last value, each value being Set in turn); a serialisation failure
fails the call with the encoder's error. -/
theorem executeRequest_structured_body {β : Type} (env : Env β) (client : Client)
    (inputs : RequestInput β) (b : β)
    (hb : inputs.Body = some b) (hwf : wfOptHeaders inputs.Headers) :
    (∀ e, env.marshalIndent b "" "    " = .error e →
        executeRequest env client inputs = .ret ⟨none, none, some (.simple e)⟩) ∧
    (∀ m req, env.marshalIndent b "" "    " = .ok m →
        buildRequest env client inputs = .built req →
        req.Body = some m ∧
        headerGet req.Header "Content-Type" = finalContentType inputs ∧
        (inputs.Headers = none → headerGet req.Header "Content-Type" = "application/json") ∧
        (∀ hs, inputs.Headers = some hs →
            hs.find? (fun p => p.1 == "Content-Type") = none →
            headerGet req.Header "Content-Type" = "application/json")) := by
  constructor
  · intro e he
    simp only [executeRequest, buildRequest, hb, he, Except.map]
  · intro m req hm hbuild
    obtain ⟨rb, endpoint0, signer, rest, authHeader, hmar, hurl, hvm, hauth, hsig, hreq⟩ :=
      buildRequest_built_inv hbuild
    rw [hb] at hmar
    simp only [hm, Except.map, Except.ok.injEq] at hmar
    have hrb : rb = some m := hmar.symm
    subst hreq
    have hCT : headerGet (signedHeader (mergedHeader (defaultCTHeader inputs) inputs.Headers)
        env.now authHeader) "Content-Type" = finalContentType inputs := by
      rw [signedHeader_get_other _ _ _ _ (by rw [canon_ContentType]; decide)
          (by rw [canon_ContentType]; decide) (by rw [canon_ContentType]; decide)
          (by rw [canon_ContentType]; decide)]
      exact headerGet_merged_CT inputs hwf
    refine ⟨hrb, hCT, ?_, ?_⟩
    · intro hnone
      rw [hCT]
      have hcc : callerContentType inputs = "" := by
        unfold callerContentType
        rw [hnone]
      simp [finalContentType, hnone, defaultCT, hcc, hb]
    · intro hs hhs hf
      rw [hCT]
      have hcc : callerContentType inputs = "" := by
        simp only [callerContentType, hhs, headerGet, canon_ContentType, hf]
      simp [finalContentType, hhs, hf, defaultCT, hcc, hb]

/-- Witness for C2 at a concrete structured-body call. -/
theorem executeRequest_structured_body_witness :
    reqW.Body = some [123, 125] ∧
    headerGet reqW.Header "Content-Type" = finalContentType inputsW := by
  have h := (executeRequest_structured_body envW (clientOf resp404) inputsW () rfl
      True.intro).2 [123, 125] reqW rfl rfl
  exact ⟨h.1, h.2.1⟩

/-- Caller headers for the C4 counterexample. -/
def inputsCex : RequestInput Unit :=
  ⟨"POST", "/acct/jobs", none,
    some [("Accept", ["text/plain"]), ("X-Request-Id", ["a", "b"])], some ()⟩

/-- The request `buildRequest` builds from `envW` and `inputsCex`. -/
def reqCex : Request :=
  { Method := "POST"
  , URL := ⟨"https://us-east.manta.example.com", "/acct/jobs", ""⟩
  , Header :=
      [ ("Content-Type", ["application/json"])
      , ("Accept", ["*/*"])
      , ("X-Request-Id", ["b"])
      , ("Date", ["Mon, 02 Jan 2006 15:04:05 UTC"])
      , ("Authorization", ["Signature keyId date=Mon, 02 Jan 2006 15:04:05 UTC"])
      , ("User-Agent", ["manta-go client API"]) ]
  , Body := some [123, 125] }

/-- C4 counterexample: with caller-supplied headers Accept: text/plain
and X-Request-Id: a, b the built request carries Accept */* (the
executor's later Set overrides the caller's value) and the value a
appears nowhere (Set keeps only an entry's last value), so not every
caller-supplied header value is present on the outbound request, and
caller values do not take precedence over the executor's defaults. -/
theorem caller_headers_precedence_cex :
    (match buildRequest envW (clientOf resp404) inputsCex with
     | .built req =>
         headerGet req.Header "Accept" == "*/*" &&
         req.Header.all (fun p => p.2.all (fun v => v != "text/plain")) &&
         headerGet req.Header "X-Request-Id" == "b" &&
         req.Header.all (fun p => p.2.all (fun v => v != "a"))
     | _ => false) = true := rfl

/-- C4 amended: caller-supplied headers are merged into the request
with per-key last-value-wins Set semantics, and the merged caller
values stand for every key other than Date, Authorization, Accept and
User-Agent; those four are set by the executor after the merge, so for
them the executor's values override any caller-supplied ones. -/
theorem caller_headers_merge_amended {β : Type} (env : Env β) (client : Client)
    (inputs : RequestInput β) (req : Request) (hs : HeaderMap)
    (hh : inputs.Headers = some hs) (hwf : wfHeaderMap hs)
    (hbuild : buildRequest env client inputs = .built req) :
    (∀ K vs, (K, vs) ∈ hs → vs ≠ [] →
        K ≠ "Date" → K ≠ "Authorization" → K ≠ "Accept" → K ≠ "User-Agent" →
        headerGet req.Header K = vs.getLastD "") ∧
    headerGet req.Header "Date" = env.now ∧
    headerGet req.Header "Accept" = "*/*" ∧
    headerGet req.Header "User-Agent" = "manta-go client API" ∧
    (∃ s rest a, client.Authorizers = s :: rest ∧ s.Sign env.now = .ok a ∧
        headerGet req.Header "Authorization" = a) := by
  obtain ⟨rb, endpoint0, signer, rest, authHeader, hmar, hurl, hvm, hauth, hsig, hreq⟩ :=
    buildRequest_built_inv hbuild
  subst hreq
  refine ⟨?_, signedHeader_get_date _ _ _, signedHeader_get_accept _ _ _,
    signedHeader_get_userAgent _ _ _,
    ⟨signer, rest, authHeader, hauth, hsig, signedHeader_get_auth _ _ _⟩⟩
  intro K vs hmem hne hD hA hAc hUA
  have hcanonK : canonicalMIMEHeaderKey K = K := hwf.1 (K, vs) hmem
  rw [signedHeader_get_other _ _ _ _ (by rw [hcanonK]; exact hD) (by rw [hcanonK]; exact hA)
      (by rw [hcanonK]; exact hAc) (by rw [hcanonK]; exact hUA)]
  show headerGet (mergedHeader (defaultCTHeader inputs) inputs.Headers) K = vs.getLastD ""
  rw [hh]
  show headerGet (mergeHeaders (defaultCTHeader inputs) hs) K = vs.getLastD ""
  rw [headerGet_mergeHeaders_entry _ hs K K vs hwf hmem hcanonK]
  exact getLastD_of_ne_nil vs hne _ _

/-- Witness for the amended C4 at the counterexample input. -/
theorem caller_headers_merge_amended_witness :
    headerGet reqCex.Header "X-Request-Id" = "b" := by
  have h := caller_headers_merge_amended envW (clientOf resp404) inputsCex reqCex
      [("Accept", ["text/plain"]), ("X-Request-Id", ["a", "b"])] rfl
      (by unfold wfHeaderMap; decide) rfl
  exact h.1 "X-Request-Id" ["a", "b"] (by decide) (by decide) (by decide) (by decide)
    (by decide) (by decide)

end Manta
